import Mathlib

/-!
Shallow embedding of the batch-execution core of rCore-Tutorial-v3
(src/os/src/batch.rs, src/os/src/trap/mod.rs, src/os/src/trap/context.rs).

Machine words are modelled as `Nat`; the one place where `usize` overflow
matters (the unguarded length subtraction `app_start[i+1] - app_start[i]`
in `AppManager::load_app`) uses an explicit wrap-around subtraction modulo
`2^64`.  Byte memory is modelled as a function `Nat → Nat`.  External
collaborators (the syscall dispatcher, `shutdown`, `__restore`) are
modelled as a function parameter resp. as terminal outcome constructors,
since the code never observes them returning.
-/

/-- Word size of the target (`usize` is 64 bits on riscv64). -/
def WORD_MOD : Nat := 2 ^ 64

/-- Models `const USER_STACK_SIZE: usize = 4096 * 2;` -/
def USER_STACK_SIZE : Nat := 4096 * 2

/-- Models `const KERNEL_STACK_SIZE: usize = 4096 * 2;` -/
def KERNEL_STACK_SIZE : Nat := 4096 * 2

/-- Models `const MAX_APP_NUM: usize = 16;` -/
def MAX_APP_NUM : Nat := 16

/-- Models `const APP_BASE_ADDRESS: usize = 0x80400000;` -/
def APP_BASE_ADDRESS : Nat := 0x80400000

/-- Models `const APP_SIZE_LIMIT: usize = 0x20000;` -/
def APP_SIZE_LIMIT : Nat := 0x20000

/-- Wrapping `usize` subtraction, as performed by `-` on `usize` in a
release build (no underflow guard in the source). -/
def wsub (a b : Nat) : Nat := (a % WORD_MOD + WORD_MOD - b % WORD_MOD) % WORD_MOD

/-- Byte-addressed memory. -/
def Mem : Type := Nat → Nat

/-- Models `slice.fill(v)` on the byte range `[base, base+len)`:
models `core::slice::from_raw_parts_mut(base, len).fill(v)`. -/
def memFill (mem : Mem) (base len v : Nat) : Mem :=
  fun a => if base ≤ a ∧ a < base + len then v else mem a

/-- Models `dst.copy_from_slice(src)` for byte ranges: the range
`[dst, dst+len)` receives the bytes currently at `[src, src+len)`. -/
def memCopy (mem : Mem) (dst src len : Nat) : Mem :=
  fun a => if dst ≤ a ∧ a < dst + len then mem (src + (a - dst)) else mem a

/-- The `SPP` field of the `sstatus` CSR (riscv crate): the privilege mode to
resume into on `sret`. -/
inductive SPP where
  | Supervisor
  | User
deriving DecidableEq, Repr

/-- The `sstatus` CSR value, split into the `SPP` field and the remaining
bits (which `app_init_context` inherits unchanged from the hardware read). -/
structure Sstatus where
  spp : SPP
  rest : Nat
deriving DecidableEq, Repr

/-- Models `sstatus.set_spp(p)`: overwrite only the SPP field, keep every other
bit of the register value. -/
def Sstatus.set_spp (s : Sstatus) (p : SPP) : Sstatus :=
  { s with spp := p }

/-- Models `TrapContext` (src/os/src/trap/context.rs): 32 general registers,
the saved `sstatus` value, and the resume address `sepc`. -/
structure TrapContext where
  x : Fin 32 → Nat
  sstatus : Sstatus
  sepc : Nat
deriving DecidableEq

/-- Models `TrapContext::set_sp`: write `sp` into register `x[2]`. -/
def TrapContext.set_sp (cx : TrapContext) (sp : Nat) : TrapContext :=
  { cx with x := Function.update cx.x 2 sp }

/-- Models `TrapContext::app_init_context(entry, sp)`.  The ambient hardware
`sstatus` value read by `sstatus::read()` is passed in as `ambient`. -/
def TrapContext.app_init_context (entry sp : Nat) (ambient : Sstatus) : TrapContext :=
  let sstatus := ambient.set_spp SPP.User
  let cx : TrapContext := { x := fun _ => 0, sstatus := sstatus, sepc := entry }
  cx.set_sp sp

/-- Models `AppManager` (src/os/src/batch.rs): application count, index of the
next application to load, and the boundary table.  The table is modelled
as a total function on indices; the Rust array holds `MAX_APP_NUM + 1`
entries of which indices `0..=num_app` are meaningful. -/
structure AppManager where
  num_app : Nat
  current_app : Nat
  app_start : Nat → Nat

/-- Models `AppManager::get_current_app`. -/
def AppManager.get_current_app (m : AppManager) : Nat := m.current_app

/-- Models `AppManager::move_to_next_app`: `self.current_app += 1`. -/
def AppManager.move_to_next_app (m : AppManager) : AppManager :=
  { m with current_app := m.current_app + 1 }

/-- The length `self.app_start[app_id + 1] - self.app_start[app_id]`
computed by `load_app` — an unguarded `usize` subtraction. -/
def AppManager.load_len (m : AppManager) (app_id : Nat) : Nat :=
  wsub (m.app_start (app_id + 1)) (m.app_start app_id)

/-- Result of `AppManager::load_app`: either the exhaustion path
(`println!` then `shutdown(false)`, which never returns) or the mutated
memory after zero-fill, copy and `fence.i`. -/
inductive LoadResult where
  | appExhausted
  | loaded (mem : Mem)

/-- Models `AppManager::load_app(app_id)`:
1. if `app_id >= num_app`: report and shut down;
2. zero the window `[APP_BASE_ADDRESS, APP_BASE_ADDRESS + APP_SIZE_LIMIT)`;
3. copy `app_start[app_id+1] - app_start[app_id]` bytes from
   `app_start[app_id]` to `APP_BASE_ADDRESS`;
4. `fence.i` (no memory effect in this model). -/
def AppManager.load_app (m : AppManager) (mem : Mem) (app_id : Nat) : LoadResult :=
  if app_id ≥ m.num_app then
    .appExhausted
  else
    let mem1 := memFill mem APP_BASE_ADDRESS APP_SIZE_LIMIT 0
    let len := m.load_len app_id
    let mem2 := memCopy mem1 APP_BASE_ADDRESS (m.app_start app_id) len
    .loaded mem2

/-- Models `UserStack`: a fixed static buffer; only its base address matters to
the embedding. -/
structure UserStack where
  base : Nat

/-- Models `UserStack::get_sp`: `data.as_ptr() + USER_STACK_SIZE`. -/
def UserStack.get_sp (s : UserStack) : Nat := s.base + USER_STACK_SIZE

/-- Models `KernelStack`: a fixed static buffer; the embedding records the
`TrapContext` most recently pushed below its top. -/
structure KernelStack where
  base : Nat
  saved : Option TrapContext

/-- Models `KernelStack::push_context(cx)`: store `cx` at the top of the kernel
stack and return (a reference to) the stored context. -/
def KernelStack.push_context (k : KernelStack) (cx : TrapContext) :
    KernelStack × TrapContext :=
  ({ k with saved := some cx }, cx)

/-- Observable operations performed by `run_next_app`, in program order:
the `load_app` call, the `move_to_next_app` increment, the
`push_context` store, the `__restore` control transfer, and the
`shutdown` call on the exhaustion path. -/
inductive Ev where
  | load (app_id : Nat)
  | advance
  | push
  | transfer
  | shutdown
deriving DecidableEq, Repr

/-- Terminal outcome of `run_next_app` (the Rust function returns `!`):
either the platform shuts down, or control transfers to the application
`app_id` with the recorded final state. -/
inductive RunOutcome where
  | shutdownAll
  | launched (app_id : Nat) (mem : Mem) (mgr : AppManager)
      (ks : KernelStack) (cx : TrapContext)

/-- Models `run_next_app()` (src/os/src/batch.rs): read `current_app`, load it
(shutting down on exhaustion), increment `current_app`, drop the
exclusive borrow, push the initial `TrapContext` onto the kernel stack
and transfer via `__restore`.  Returns the terminal outcome together
with the trace of operations in source order. -/
def run_next_app (mgr : AppManager) (mem : Mem) (ks : KernelStack)
    (us : UserStack) (ambient : Sstatus) : RunOutcome × List Ev :=
  let current_app := mgr.get_current_app
  match mgr.load_app mem current_app with
  | .appExhausted => (.shutdownAll, [.load current_app, .shutdown])
  | .loaded mem1 =>
    let mgr1 := mgr.move_to_next_app
    let (ks1, cx) := ks.push_context
      (TrapContext.app_init_context APP_BASE_ADDRESS us.get_sp ambient)
    (.launched current_app mem1 mgr1 ks1 cx,
     [.load current_app, .advance, .push, .transfer])

/-- The trap causes distinguished by `trap_handler`'s `match` on
`scause.cause()`. -/
inductive Cause where
  | userEnvCall
  | storeFault
  | storePageFault
  | illegalInstruction
  | other (code : Nat)
deriving DecidableEq, Repr

/-- Terminal outcome of one `trap_handler` invocation: return the
(mutated) context to `__restore` and resume the same application, tail
into `run_next_app` (recorded with its outcome and trace), or `panic!`. -/
inductive TrapResult where
  | resume (cx : TrapContext)
  | toNext (r : RunOutcome) (tr : List Ev)
  | fatal (cause : Cause) (stval : Nat)

/-- Models `trap_handler(cx)` (src/os/src/trap/mod.rs).  The external syscall
dispatcher `syscall(id, [a0, a1, a2])` is the parameter `sys`. -/
def trap_handler (sys : Nat → Nat → Nat → Nat → Nat)
    (mgr : AppManager) (mem : Mem) (ks : KernelStack) (us : UserStack)
    (ambient : Sstatus) (cause : Cause) (stval : Nat)
    (cx : TrapContext) : TrapResult :=
  match cause with
  | .userEnvCall =>
    let cx1 : TrapContext := { cx with sepc := cx.sepc + 4 }
    let ret := sys (cx1.x 17) (cx1.x 10) (cx1.x 11) (cx1.x 12)
    .resume { cx1 with x := Function.update cx1.x 10 ret }
  | .storeFault =>
    let (r, tr) := run_next_app mgr mem ks us ambient
    .toNext r tr
  | .storePageFault =>
    let (r, tr) := run_next_app mgr mem ks us ambient
    .toNext r tr
  | .illegalInstruction =>
    let (r, tr) := run_next_app mgr mem ks us ambient
    .toNext r tr
  | .other code =>
    .fatal (.other code) stval

/-- Copy of a source slice of length `n` into the first `n` cells of a
destination of length `dstLen`, as `dst[..=num_app].copy_from_slice(raw)`
does; `none` models the panic (process abort) raised when the range
`..=num_app` exceeds the destination array's bounds. -/
def copyFromSlice (dst : Nat → Nat) (dstLen : Nat) (src : Nat → Nat)
    (n : Nat) : Option (Nat → Nat) :=
  if n ≤ dstLen then some (fun i => if i < n then src i else dst i) else none

/-- Construction of the global `APP_MANAGER` (the `lazy_static!` block):
read `num_app` at the fixed location `_num_app`, then copy the
`num_app + 1` boundary words that follow it into a zeroed
`[usize; MAX_APP_NUM + 1]` array.  `src k` is the `k`-th word at the
fixed external location; `none` models the fatal abort on a malformed
table. -/
def buildAppManager (src : Nat → Nat) : Option AppManager :=
  let num_app := src 0
  let app_start0 : Nat → Nat := fun _ => 0
  match copyFromSlice app_start0 (MAX_APP_NUM + 1)
      (fun i => src (1 + i)) (num_app + 1) with
  | none => none
  | some app_start =>
    some { num_app := num_app, current_app := 0, app_start := app_start }

/-! ## Helper lemmas -/

/-- Wrapping subtraction agrees with mathematical subtraction when no
underflow occurs and the operands are machine words. -/
theorem wsub_eq_of_le {a b : Nat} (hb : b ≤ a) (ha : a < WORD_MOD) :
    wsub a b = a - b := by
  have hW : WORD_MOD = 18446744073709551616 := by norm_num [WORD_MOD]
  simp only [wsub, hW] at *
  omega

/-- Wrapping subtraction on underflow yields the two's-complement wrap
value. -/
theorem wsub_eq_of_lt {a b : Nat} (hab : a < b) (hb : b < WORD_MOD) :
    wsub a b = WORD_MOD - (b - a) := by
  have hW : WORD_MOD = 18446744073709551616 := by norm_num [WORD_MOD]
  simp only [wsub, hW] at *
  omega

/-! ## Claims -/

/-- C5: the initial Saved Execution State built by
`TrapContext::app_init_context(entry, sp)` has previous-privilege
indicator `User`, resume address `entry`, stack-pointer register
`x[2] = sp`, and every other general register zero.  The construction
is embedded as a pure function: it has no effect beyond its result. -/
theorem spec_C5_initial_state (entry sp : Nat) (amb : Sstatus) :
    (TrapContext.app_init_context entry sp amb).sstatus.spp = SPP.User ∧
    (TrapContext.app_init_context entry sp amb).sepc = entry ∧
    (TrapContext.app_init_context entry sp amb).x 2 = sp ∧
    ∀ i : Fin 32, i ≠ 2 → (TrapContext.app_init_context entry sp amb).x i = 0 := by
  refine ⟨rfl, rfl, ?_, ?_⟩
  · simp [TrapContext.app_init_context, TrapContext.set_sp]
  · intro i hi
    simp [TrapContext.app_init_context, TrapContext.set_sp,
      Function.update_noteq hi]

/-- Witness for C5 at a concrete entry, stack pointer and ambient
status value. -/
theorem spec_C5_witness :
    (TrapContext.app_init_context 0x80400000 0x81002000 ⟨SPP.Supervisor, 5⟩).sstatus.spp = SPP.User ∧
    (TrapContext.app_init_context 0x80400000 0x81002000 ⟨SPP.Supervisor, 5⟩).sepc = 0x80400000 ∧
    (TrapContext.app_init_context 0x80400000 0x81002000 ⟨SPP.Supervisor, 5⟩).x 2 = 0x81002000 ∧
    ∀ i : Fin 32, i ≠ 2 →
      (TrapContext.app_init_context 0x80400000 0x81002000 ⟨SPP.Supervisor, 5⟩).x i = 0 :=
  spec_C5_initial_state 0x80400000 0x81002000 ⟨SPP.Supervisor, 5⟩

/-- C10: `app_init_context` only forces the SPP field of the saved
status to `User`; every other bit of the status value is inherited from
the ambient hardware `sstatus` read at construction time, so the saved
status is a function of the ambient value, not a constant. -/
theorem spec_C10_sstatus_inherited (entry sp : Nat) (amb : Sstatus) :
    (TrapContext.app_init_context entry sp amb).sstatus = ⟨SPP.User, amb.rest⟩ ∧
    (TrapContext.app_init_context entry sp amb).sstatus.rest = amb.rest ∧
    ∃ a b : Sstatus,
      (TrapContext.app_init_context entry sp a).sstatus ≠
        (TrapContext.app_init_context entry sp b).sstatus := by
  refine ⟨rfl, rfl, ⟨SPP.User, 0⟩, ⟨SPP.User, 1⟩, ?_⟩
  intro h
  have : (0 : Nat) = 1 := congrArg Sstatus.rest h
  exact absurd this (by decide)

/-- Witness for C10 at a concrete entry, stack pointer and ambient
status value. -/
theorem spec_C10_witness :
    (TrapContext.app_init_context 0x80400000 0x81002000 ⟨SPP.Supervisor, 7⟩).sstatus = ⟨SPP.User, 7⟩ ∧
    (TrapContext.app_init_context 0x80400000 0x81002000 ⟨SPP.Supervisor, 7⟩).sstatus.rest = 7 ∧
    ∃ a b : Sstatus,
      (TrapContext.app_init_context 0x80400000 0x81002000 a).sstatus ≠
        (TrapContext.app_init_context 0x80400000 0x81002000 b).sstatus :=
  spec_C10_sstatus_inherited 0x80400000 0x81002000 ⟨SPP.Supervisor, 7⟩

/-- C3: a system-call trap on a saved state with resume address `P`,
identifier in `x[17]` and arguments in `x[10..12]` resumes the same
application with resume address `P + 4`, the external collaborator's
value `sys (x 17) (x 10) (x 11) (x 12)` (computed from the pre-trap
slots) written into the designated return slot `x[10]`, and every
other register slot and the saved status unchanged. -/
theorem spec_C3_syscall_step (sys : Nat → Nat → Nat → Nat → Nat)
    (mgr : AppManager) (mem : Mem) (ks : KernelStack) (us : UserStack)
    (amb : Sstatus) (stval : Nat) (cx : TrapContext) :
    ∃ cx', trap_handler sys mgr mem ks us amb Cause.userEnvCall stval cx =
        TrapResult.resume cx' ∧
      cx'.sepc = cx.sepc + 4 ∧
      cx'.x 10 = sys (cx.x 17) (cx.x 10) (cx.x 11) (cx.x 12) ∧
      (∀ i : Fin 32, i ≠ 10 → cx'.x i = cx.x i) ∧
      cx'.sstatus = cx.sstatus := by
  refine ⟨_, rfl, rfl, ?_, ?_, rfl⟩
  · simp [trap_handler]
  · intro i hi
    simp [trap_handler, Function.update_noteq hi]

/-- Witness for C3 at a concrete collaborator and saved state. -/
theorem spec_C3_witness :
    ∃ cx', trap_handler (fun id a _ _ => id + a)
        ⟨1, 0, fun _ => 0⟩ (fun _ => 0) ⟨0, none⟩ ⟨0x81000000⟩
        ⟨SPP.Supervisor, 0⟩ Cause.userEnvCall 0
        ⟨fun i => i.val, ⟨SPP.User, 3⟩, 0x80400abc⟩ =
        TrapResult.resume cx' ∧
      cx'.sepc = (⟨fun i => i.val, ⟨SPP.User, 3⟩, 0x80400abc⟩ : TrapContext).sepc + 4 ∧
      cx'.x 10 = (fun id a _ _ => id + a)
        ((⟨fun i => i.val, ⟨SPP.User, 3⟩, 0x80400abc⟩ : TrapContext).x 17)
        ((⟨fun i => i.val, ⟨SPP.User, 3⟩, 0x80400abc⟩ : TrapContext).x 10)
        ((⟨fun i => i.val, ⟨SPP.User, 3⟩, 0x80400abc⟩ : TrapContext).x 11)
        ((⟨fun i => i.val, ⟨SPP.User, 3⟩, 0x80400abc⟩ : TrapContext).x 12) ∧
      (∀ i : Fin 32, i ≠ 10 →
        cx'.x i = (⟨fun i => i.val, ⟨SPP.User, 3⟩, 0x80400abc⟩ : TrapContext).x i) ∧
      cx'.sstatus = (⟨fun i => i.val, ⟨SPP.User, 3⟩, 0x80400abc⟩ : TrapContext).sstatus :=
  spec_C3_syscall_step (fun id a _ _ => id + a)
    ⟨1, 0, fun _ => 0⟩ (fun _ => 0) ⟨0, none⟩ ⟨0x81000000⟩
    ⟨SPP.Supervisor, 0⟩ 0 ⟨fun i => i.val, ⟨SPP.User, 3⟩, 0x80400abc⟩

/-- C4: for an index at or beyond `num_app`, `load_app` takes the
exhaustion path before touching memory, and `run_next_app` on such a
state shuts down: its trace contains no copy into the window, no push
and no control transfer, so no application code is copied or executed. -/
theorem spec_C4_exhaustion (m : AppManager) (mem : Mem) (i : Nat)
    (hi : m.num_app ≤ i) :
    m.load_app mem i = LoadResult.appExhausted ∧
    ∀ ks us amb, m.current_app = i →
      run_next_app m mem ks us amb =
        (RunOutcome.shutdownAll, [Ev.load i, Ev.shutdown]) := by
  have hload : m.load_app mem i = LoadResult.appExhausted := by
    simp [AppManager.load_app, hi]
  refine ⟨hload, ?_⟩
  intro ks us amb hcur
  simp [run_next_app, AppManager.get_current_app, hcur, hload]

/-- Witness for C4: a manager whose two applications are both done. -/
theorem spec_C4_witness :
    (0 + 2 ≤ 2) ∧
    ((⟨2, 2, fun _ => 0⟩ : AppManager).load_app (fun _ => 0) 2 =
        LoadResult.appExhausted ∧
      ∀ ks us amb, (⟨2, 2, fun _ => 0⟩ : AppManager).current_app = 2 →
        run_next_app ⟨2, 2, fun _ => 0⟩ (fun _ => 0) ks us amb =
          (RunOutcome.shutdownAll, [Ev.load 2, Ev.shutdown])) :=
  ⟨by decide, spec_C4_exhaustion ⟨2, 2, fun _ => 0⟩ (fun _ => 0) 2 (by decide)⟩

/-- C1: for a valid index whose table entries are ascending machine
words, whose image fits the window, and whose source region is disjoint
from the window, `load_app` succeeds and the window holds exactly the
source bytes of `[app_start i, app_start (i+1))` at its base, with every
remaining window byte up to `APP_SIZE_LIMIT` zeroed. -/
theorem spec_C1_load_window (m : AppManager) (mem : Mem) (i : Nat)
    (hi : i < m.num_app)
    (hmono : m.app_start i ≤ m.app_start (i + 1))
    (hword : m.app_start (i + 1) < WORD_MOD)
    (hfit : m.app_start (i + 1) - m.app_start i ≤ APP_SIZE_LIMIT)
    (hdisj : m.app_start (i + 1) ≤ APP_BASE_ADDRESS ∨
      APP_BASE_ADDRESS + APP_SIZE_LIMIT ≤ m.app_start i) :
    ∃ mem', m.load_app mem i = LoadResult.loaded mem' ∧
      (∀ o, o < m.app_start (i + 1) - m.app_start i →
        mem' (APP_BASE_ADDRESS + o) = mem (m.app_start i + o)) ∧
      (∀ o, m.app_start (i + 1) - m.app_start i ≤ o → o < APP_SIZE_LIMIT →
        mem' (APP_BASE_ADDRESS + o) = 0) := by
  have hlen : m.load_len i = m.app_start (i + 1) - m.app_start i :=
    wsub_eq_of_le hmono hword
  have hni : ¬ i ≥ m.num_app := by omega
  refine ⟨_, by rw [AppManager.load_app, if_neg hni], ?_, ?_⟩
  · intro o ho
    show memCopy (memFill mem APP_BASE_ADDRESS APP_SIZE_LIMIT 0)
        APP_BASE_ADDRESS (m.app_start i) (m.load_len i)
        (APP_BASE_ADDRESS + o) = mem (m.app_start i + o)
    simp only [memCopy, memFill, hlen, Nat.add_sub_cancel_left]
    split_ifs <;> first | rfl | omega
  · intro o ho1 ho2
    show memCopy (memFill mem APP_BASE_ADDRESS APP_SIZE_LIMIT 0)
        APP_BASE_ADDRESS (m.app_start i) (m.load_len i)
        (APP_BASE_ADDRESS + o) = 0
    simp only [memCopy, memFill, hlen, Nat.add_sub_cancel_left]
    split_ifs <;> first | rfl | omega

/-- Witness for C1: a two-application table with a 0x100-byte first
image below the window. -/
theorem spec_C1_witness :
    (0 < 2) ∧
    (0x80201000 ≤ 0x80201100) ∧
    ((0x80201100 : Nat) < WORD_MOD) ∧
    ((0x80201100 : Nat) - 0x80201000 ≤ APP_SIZE_LIMIT) ∧
    ((0x80201100 : Nat) ≤ APP_BASE_ADDRESS ∨
      APP_BASE_ADDRESS + APP_SIZE_LIMIT ≤ 0x80201000) ∧
    (∃ mem',
      (⟨2, 0, fun k => [0x80201000, 0x80201100, 0x80201300].getD k 0⟩ :
        AppManager).load_app (fun a => a % 251) 0 = LoadResult.loaded mem' ∧
      (∀ o, o < (⟨2, 0, fun k => [0x80201000, 0x80201100, 0x80201300].getD k 0⟩ :
            AppManager).app_start (0 + 1) -
          (⟨2, 0, fun k => [0x80201000, 0x80201100, 0x80201300].getD k 0⟩ :
            AppManager).app_start 0 →
        mem' (APP_BASE_ADDRESS + o) =
          (fun a => a % 251)
            ((⟨2, 0, fun k => [0x80201000, 0x80201100, 0x80201300].getD k 0⟩ :
              AppManager).app_start 0 + o)) ∧
      (∀ o, (⟨2, 0, fun k => [0x80201000, 0x80201100, 0x80201300].getD k 0⟩ :
            AppManager).app_start (0 + 1) -
          (⟨2, 0, fun k => [0x80201000, 0x80201100, 0x80201300].getD k 0⟩ :
            AppManager).app_start 0 ≤ o → o < APP_SIZE_LIMIT →
        mem' (APP_BASE_ADDRESS + o) = 0)) :=
  ⟨by decide, by decide, by decide, by decide, by decide,
    spec_C1_load_window
      ⟨2, 0, fun k => [0x80201000, 0x80201100, 0x80201300].getD k 0⟩
      (fun a => a % 251) 0 (by decide) (by decide) (by decide) (by decide)
      (by decide)⟩

/-- C9: `load_app` applies no size check against the window limit and no
ordering guard on the table: for every index below `num_app` it proceeds
to the copy; the computed length is exactly `app_start (i+1) -
app_start i` whenever the entries are ordered (with no clamp to
`APP_SIZE_LIMIT`), it silently wraps modulo `2^64` when they are not,
and the copy writes the full length of bytes starting at the window
base, even past the window limit. -/
theorem spec_C9_no_size_check (m : AppManager) (mem : Mem) (i : Nat)
    (hi : i < m.num_app) :
    (∃ mem', m.load_app mem i = LoadResult.loaded mem') ∧
    (m.app_start i ≤ m.app_start (i + 1) → m.app_start (i + 1) < WORD_MOD →
      m.load_len i = m.app_start (i + 1) - m.app_start i) ∧
    (m.app_start (i + 1) < m.app_start i → m.app_start i < WORD_MOD →
      m.load_len i = WORD_MOD - (m.app_start i - m.app_start (i + 1))) ∧
    (∀ mem', m.load_app mem i = LoadResult.loaded mem' →
      ∀ o, o < m.load_len i →
        mem' (APP_BASE_ADDRESS + o) =
          memFill mem APP_BASE_ADDRESS APP_SIZE_LIMIT 0 (m.app_start i + o)) := by
  have hni : ¬ i ≥ m.num_app := by omega
  have hload : m.load_app mem i = LoadResult.loaded
      (memCopy (memFill mem APP_BASE_ADDRESS APP_SIZE_LIMIT 0)
        APP_BASE_ADDRESS (m.app_start i) (m.load_len i)) := by
    rw [AppManager.load_app, if_neg hni]
  refine ⟨⟨_, hload⟩, fun h1 h2 => wsub_eq_of_le h1 h2,
    fun h1 h2 => wsub_eq_of_lt h1 h2, ?_⟩
  intro mem' hmem' o ho
  rw [hload] at hmem'
  cases hmem'
  rw [memCopy]
  rw [if_pos (by constructor <;> omega)]
  rw [Nat.add_sub_cancel_left]

/-- Witness for C9: a table whose first image is larger than the window
limit, on which `load_app` still proceeds and copies the full length. -/
theorem spec_C9_witness :
    (0 < 1) ∧
    ((∃ mem',
      (⟨1, 0, fun k => [0x80201000, 0x80251000].getD k 0⟩ :
        AppManager).load_app (fun a => a % 251) 0 = LoadResult.loaded mem') ∧
    ((⟨1, 0, fun k => [0x80201000, 0x80251000].getD k 0⟩ :
        AppManager).app_start 0 ≤
      (⟨1, 0, fun k => [0x80201000, 0x80251000].getD k 0⟩ :
        AppManager).app_start (0 + 1) →
      (⟨1, 0, fun k => [0x80201000, 0x80251000].getD k 0⟩ :
        AppManager).app_start (0 + 1) < WORD_MOD →
      (⟨1, 0, fun k => [0x80201000, 0x80251000].getD k 0⟩ :
        AppManager).load_len 0 =
        (⟨1, 0, fun k => [0x80201000, 0x80251000].getD k 0⟩ :
          AppManager).app_start (0 + 1) -
        (⟨1, 0, fun k => [0x80201000, 0x80251000].getD k 0⟩ :
          AppManager).app_start 0) ∧
    ((⟨1, 0, fun k => [0x80201000, 0x80251000].getD k 0⟩ :
        AppManager).app_start (0 + 1) <
      (⟨1, 0, fun k => [0x80201000, 0x80251000].getD k 0⟩ :
        AppManager).app_start 0 →
      (⟨1, 0, fun k => [0x80201000, 0x80251000].getD k 0⟩ :
        AppManager).app_start 0 < WORD_MOD →
      (⟨1, 0, fun k => [0x80201000, 0x80251000].getD k 0⟩ :
        AppManager).load_len 0 = WORD_MOD -
        ((⟨1, 0, fun k => [0x80201000, 0x80251000].getD k 0⟩ :
          AppManager).app_start 0 -
         (⟨1, 0, fun k => [0x80201000, 0x80251000].getD k 0⟩ :
          AppManager).app_start (0 + 1))) ∧
    (∀ mem',
      (⟨1, 0, fun k => [0x80201000, 0x80251000].getD k 0⟩ :
        AppManager).load_app (fun a => a % 251) 0 = LoadResult.loaded mem' →
      ∀ o, o < (⟨1, 0, fun k => [0x80201000, 0x80251000].getD k 0⟩ :
          AppManager).load_len 0 →
        mem' (APP_BASE_ADDRESS + o) =
          memFill (fun a => a % 251) APP_BASE_ADDRESS APP_SIZE_LIMIT 0
            ((⟨1, 0, fun k => [0x80201000, 0x80251000].getD k 0⟩ :
              AppManager).app_start 0 + o))) :=
  ⟨by decide,
    spec_C9_no_size_check
      ⟨1, 0, fun k => [0x80201000, 0x80251000].getD k 0⟩
      (fun a => a % 251) 0 (by decide)⟩

/-! ## Concrete fixtures used by witnesses and counterexamples -/

/-- A concrete two-application manager about to launch application 0. -/
def mgr0 : AppManager :=
  ⟨2, 0, fun k => [0x80201000, 0x80201100, 0x80201300].getD k 0⟩

/-- A concrete memory. -/
def mem0 : Mem := fun a => a % 256

/-- A concrete kernel stack. -/
def ks0 : KernelStack := ⟨0x80210000, none⟩

/-- A concrete user stack. -/
def us0 : UserStack := ⟨0x80220000⟩

/-- A concrete ambient hardware status value. -/
def amb0 : Sstatus := ⟨SPP.Supervisor, 3⟩

/-- A concrete external system-call collaborator. -/
def sys0 : Nat → Nat → Nat → Nat → Nat := fun _ _ _ _ => 0

/-- A concrete saved state whose first-argument slot `x[10]` and slot
`x[11]` hold the same value 7. -/
def cx8 : TrapContext :=
  ⟨fun i => if i.val = 10 ∨ i.val = 11 then 7 else 0, ⟨SPP.User, 0⟩, 0x80400100⟩

/-! ## Remaining claims -/

/-- C2: on a recoverable fault (store fault, store page fault or illegal
instruction) the dispatcher never resumes the faulting application: it
tails into `run_next_app`, and any application that run launches is the
one at `current_app`, which differs from the faulting application's
index `f` because `advance` already ran during the prior launch
(`current_app = f + 1`). -/
theorem spec_C2_fault_skips (sys : Nat → Nat → Nat → Nat → Nat)
    (mgr : AppManager) (mem : Mem) (ks : KernelStack) (us : UserStack)
    (amb : Sstatus) (cause : Cause) (stval : Nat) (cx : TrapContext)
    (f : Nat)
    (hc : cause = Cause.storeFault ∨ cause = Cause.storePageFault ∨
      cause = Cause.illegalInstruction)
    (hf : mgr.current_app = f + 1) :
    (∀ cx', trap_handler sys mgr mem ks us amb cause stval cx ≠
      TrapResult.resume cx') ∧
    trap_handler sys mgr mem ks us amb cause stval cx =
      TrapResult.toNext (run_next_app mgr mem ks us amb).1
        (run_next_app mgr mem ks us amb).2 ∧
    (∀ j mem1 mgr1 ks1 cx1,
      (run_next_app mgr mem ks us amb).1 =
        RunOutcome.launched j mem1 mgr1 ks1 cx1 →
      j = mgr.get_current_app ∧ j ≠ f) := by
  have hth : trap_handler sys mgr mem ks us amb cause stval cx =
      TrapResult.toNext (run_next_app mgr mem ks us amb).1
        (run_next_app mgr mem ks us amb).2 := by
    rcases hrun : run_next_app mgr mem ks us amb with ⟨r, tr⟩
    rcases hc with h | h | h <;> subst h <;> simp [trap_handler, hrun]
  refine ⟨?_, hth, ?_⟩
  · intro cx' hres
    rw [hth] at hres
    exact TrapResult.noConfusion hres
  · intro j mem1 mgr1 ks1 cx1 hl
    rcases hload : mgr.load_app mem mgr.get_current_app with _ | m2
    · rw [run_next_app, AppManager.get_current_app] at hl
      rw [AppManager.get_current_app] at hload
      rw [hload] at hl
      exact RunOutcome.noConfusion hl
    · rw [run_next_app, AppManager.get_current_app] at hl
      rw [AppManager.get_current_app] at hload
      rw [hload] at hl
      simp only [KernelStack.push_context] at hl
      have hj : j = mgr.current_app := by
        cases hl
        rfl
      exact ⟨hj, by omega⟩

/-- Witness for C2: a store fault taken while application 0 runs, with
`current_app` already advanced to 1. -/
theorem spec_C2_witness :
    ((Cause.storeFault = Cause.storeFault ∨
      Cause.storeFault = Cause.storePageFault ∨
      Cause.storeFault = Cause.illegalInstruction) ∧
    (⟨2, 1, fun k => [0x80201000, 0x80201100, 0x80201300].getD k 0⟩ :
      AppManager).current_app = 0 + 1) ∧
    ((∀ cx', trap_handler sys0
        ⟨2, 1, fun k => [0x80201000, 0x80201100, 0x80201300].getD k 0⟩
        mem0 ks0 us0 amb0 Cause.storeFault 0 cx8 ≠ TrapResult.resume cx') ∧
    trap_handler sys0
        ⟨2, 1, fun k => [0x80201000, 0x80201100, 0x80201300].getD k 0⟩
        mem0 ks0 us0 amb0 Cause.storeFault 0 cx8 =
      TrapResult.toNext
        (run_next_app ⟨2, 1, fun k => [0x80201000, 0x80201100, 0x80201300].getD k 0⟩
          mem0 ks0 us0 amb0).1
        (run_next_app ⟨2, 1, fun k => [0x80201000, 0x80201100, 0x80201300].getD k 0⟩
          mem0 ks0 us0 amb0).2 ∧
    (∀ j mem1 mgr1 ks1 cx1,
      (run_next_app ⟨2, 1, fun k => [0x80201000, 0x80201100, 0x80201300].getD k 0⟩
        mem0 ks0 us0 amb0).1 = RunOutcome.launched j mem1 mgr1 ks1 cx1 →
      j = (⟨2, 1, fun k => [0x80201000, 0x80201100, 0x80201300].getD k 0⟩ :
        AppManager).get_current_app ∧ j ≠ 0)) :=
  ⟨⟨Or.inl rfl, rfl⟩,
    spec_C2_fault_skips sys0
      ⟨2, 1, fun k => [0x80201000, 0x80201100, 0x80201300].getD k 0⟩
      mem0 ks0 us0 amb0 Cause.storeFault 0 cx8 0 (Or.inl rfl) rfl⟩

/-- C6 (amended): `run_next_app` performs, in source order, `load_app`
of the current index, then `advance` (`move_to_next_app`), then the
construction and push of the initial Saved Execution State (entry =
`APP_BASE_ADDRESS`, stack pointer = top of the user stack, previous
privilege = `User` by `app_init_context`), then the `__restore` control
transfer; its result type has no normal-return outcome.  The claim's
stated order (push before `advance`) does not match the source, see the
counterexample. -/
theorem spec_C6_launch_order (mgr : AppManager) (mem : Mem)
    (ks : KernelStack) (us : UserStack) (amb : Sstatus)
    (h : mgr.current_app < mgr.num_app) :
    ∃ mem1, mgr.load_app mem mgr.current_app = LoadResult.loaded mem1 ∧
      run_next_app mgr mem ks us amb =
        (RunOutcome.launched mgr.current_app mem1 mgr.move_to_next_app
          ⟨ks.base, some (TrapContext.app_init_context APP_BASE_ADDRESS us.get_sp amb)⟩
          (TrapContext.app_init_context APP_BASE_ADDRESS us.get_sp amb),
         [Ev.load mgr.current_app, Ev.advance, Ev.push, Ev.transfer]) ∧
      mgr.move_to_next_app.current_app = mgr.current_app + 1 := by
  have hni : ¬ mgr.current_app ≥ mgr.num_app := by omega
  have hload : mgr.load_app mem mgr.current_app = LoadResult.loaded
      (memCopy (memFill mem APP_BASE_ADDRESS APP_SIZE_LIMIT 0)
        APP_BASE_ADDRESS (mgr.app_start mgr.current_app)
        (mgr.load_len mgr.current_app)) := by
    rw [AppManager.load_app, if_neg hni]
  refine ⟨_, hload, ?_, rfl⟩
  rw [run_next_app, AppManager.get_current_app, hload]
  rfl

/-- Witness for C6 (amended) on a concrete initial state. -/
theorem spec_C6_witness :
    (mgr0.current_app < mgr0.num_app) ∧
    (∃ mem1, mgr0.load_app mem0 mgr0.current_app = LoadResult.loaded mem1 ∧
      run_next_app mgr0 mem0 ks0 us0 amb0 =
        (RunOutcome.launched mgr0.current_app mem1 mgr0.move_to_next_app
          ⟨ks0.base, some (TrapContext.app_init_context APP_BASE_ADDRESS us0.get_sp amb0)⟩
          (TrapContext.app_init_context APP_BASE_ADDRESS us0.get_sp amb0),
         [Ev.load mgr0.current_app, Ev.advance, Ev.push, Ev.transfer]) ∧
      mgr0.move_to_next_app.current_app = mgr0.current_app + 1) :=
  ⟨by decide, spec_C6_launch_order mgr0 mem0 ks0 us0 amb0 (by decide)⟩

/-- C6 counterexample: on a concrete state the operation trace of
`run_next_app` is load, advance, push, transfer — the push onto the
privileged stack does not occur before `advance()`, contradicting the
claimed order. -/
theorem spec_C6_counterexample :
    (run_next_app mgr0 mem0 ks0 us0 amb0).2 =
      [Ev.load 0, Ev.advance, Ev.push, Ev.transfer] ∧
    ¬ ((run_next_app mgr0 mem0 ks0 us0 amb0).2.indexOf Ev.push <
        (run_next_app mgr0 mem0 ks0 us0 amb0).2.indexOf Ev.advance) := by
  constructor
  · rfl
  · decide

/-- C7: the construction of the global manager from the words at the
fixed external location (`src 0` is the count, `src (1+i)` the
boundary markers) aborts exactly when the count exceeds
`MAX_APP_NUM`; otherwise the manager holds that count, starts at
`current_app = 0`, carries the `count + 1` copied boundary markers, and
leaves the remaining table entries zero. -/
theorem spec_C7_init (src : Nat → Nat) :
    (buildAppManager src = none ↔ MAX_APP_NUM < src 0) ∧
    (∀ m, buildAppManager src = some m →
      m.num_app = src 0 ∧ m.current_app = 0 ∧
      (∀ i, i ≤ src 0 → m.app_start i = src (1 + i)) ∧
      (∀ i, src 0 < i → m.app_start i = 0)) := by
  by_cases h : src 0 + 1 ≤ MAX_APP_NUM + 1
  · have hb : buildAppManager src =
        some ⟨src 0, 0, fun i => if i < src 0 + 1 then src (1 + i) else 0⟩ := by
      simp only [buildAppManager, copyFromSlice, if_pos h]
    constructor
    · rw [hb]
      constructor
      · intro hc
        exact Option.noConfusion hc
      · intro hc
        exact absurd hc (by omega)
    · intro m hm
      rw [hb] at hm
      injection hm with hm'
      subst hm'
      refine ⟨rfl, rfl, ?_, ?_⟩
      · intro i hi
        show (if i < src 0 + 1 then src (1 + i) else 0) = src (1 + i)
        rw [if_pos (by omega)]
      · intro i hi
        show (if i < src 0 + 1 then src (1 + i) else 0) = 0
        rw [if_neg (by omega)]
  · have hb : buildAppManager src = none := by
      simp only [buildAppManager, copyFromSlice, if_neg h]
    constructor
    · rw [hb]
      exact ⟨fun _ => by omega, fun _ => rfl⟩
    · intro m hm
      rw [hb] at hm
      exact Option.noConfusion hm

/-- Witness for C7: a well-formed two-application table blob. -/
theorem spec_C7_witness :
    (buildAppManager (fun k => [2, 0x80201000, 0x80201100, 0x80201300].getD k 0) = none ↔
      MAX_APP_NUM < (fun k => [2, 0x80201000, 0x80201100, 0x80201300].getD k 0) 0) ∧
    (∀ m, buildAppManager (fun k => [2, 0x80201000, 0x80201100, 0x80201300].getD k 0) =
        some m →
      m.num_app = (fun k => [2, 0x80201000, 0x80201100, 0x80201300].getD k 0) 0 ∧
      m.current_app = 0 ∧
      (∀ i, i ≤ (fun k => [2, 0x80201000, 0x80201100, 0x80201300].getD k 0) 0 →
        m.app_start i = (fun k => [2, 0x80201000, 0x80201100, 0x80201300].getD k 0) (1 + i)) ∧
      (∀ i, (fun k => [2, 0x80201000, 0x80201100, 0x80201300].getD k 0) 0 < i →
        m.app_start i = 0)) :=
  spec_C7_init (fun k => [2, 0x80201000, 0x80201100, 0x80201300].getD k 0)

/-- C8 (amended): the designated return slot of a system-call trap is
`x[10]`, the same slot as the first argument: the collaborator receives
the pre-trap values of `x[17]`, `x[10]`, `x[11]`, `x[12]` (read before
the write), afterwards `x[10]` holds the collaborator's value, and the
identifier slot `x[17]` and argument slots `x[11]`, `x[12]` are
unchanged.  The original first-argument value survives wherever an
unchanged slot (or the return value) happens to equal it, so it is not
in general erased from the saved state. -/
theorem spec_C8_return_slot (sys : Nat → Nat → Nat → Nat → Nat)
    (mgr : AppManager) (mem : Mem) (ks : KernelStack) (us : UserStack)
    (amb : Sstatus) (stval : Nat) (cx : TrapContext) :
    ∃ cx', trap_handler sys mgr mem ks us amb Cause.userEnvCall stval cx =
        TrapResult.resume cx' ∧
      cx'.x 10 = sys (cx.x 17) (cx.x 10) (cx.x 11) (cx.x 12) ∧
      cx'.x 17 = cx.x 17 ∧ cx'.x 11 = cx.x 11 ∧ cx'.x 12 = cx.x 12 := by
  refine ⟨_, rfl, rfl, ?_, ?_, ?_⟩
  · exact Function.update_noteq (show (17 : Fin 32) ≠ 10 by decide)
      (sys (cx.x 17) (cx.x 10) (cx.x 11) (cx.x 12)) cx.x
  · exact Function.update_noteq (show (11 : Fin 32) ≠ 10 by decide)
      (sys (cx.x 17) (cx.x 10) (cx.x 11) (cx.x 12)) cx.x
  · exact Function.update_noteq (show (12 : Fin 32) ≠ 10 by decide)
      (sys (cx.x 17) (cx.x 10) (cx.x 11) (cx.x 12)) cx.x

/-- Witness for C8 (amended) on a concrete collaborator and state. -/
theorem spec_C8_witness :
    ∃ cx', trap_handler sys0 mgr0 mem0 ks0 us0 amb0 Cause.userEnvCall 0 cx8 =
        TrapResult.resume cx' ∧
      cx'.x 10 = sys0 (cx8.x 17) (cx8.x 10) (cx8.x 11) (cx8.x 12) ∧
      cx'.x 17 = cx8.x 17 ∧ cx'.x 11 = cx8.x 11 ∧ cx'.x 12 = cx8.x 12 :=
  spec_C8_return_slot sys0 mgr0 mem0 ks0 us0 amb0 0 cx8

/-- C8 counterexample: with the collaborator `sys0` and the saved state
`cx8` (whose slots `x[10]` and `x[11]` both hold 7), the value
originally in the first-argument slot is still present in the saved
state after the trap (in the unchanged slot `x[11]`), refuting the
claim that it is no longer present anywhere. -/
theorem spec_C8_counterexample :
    ¬ (∀ cx', trap_handler sys0 mgr0 mem0 ks0 us0 amb0 Cause.userEnvCall 0 cx8 =
        TrapResult.resume cx' → ∀ i : Fin 32, cx'.x i ≠ cx8.x 10) := by
  intro h
  exact h _ rfl 11 (by decide)
